import Mathlib

/-!
Verification of the color-blindness correction core.

The development embeds the color-correction engine of the repository:
`colourblind_correction.py` (class `ColorBlindnessCorrector`: RGB-LMS
transforms, per-deficiency simulation, LMS-space daltonization, the mode
state machine), `correction.py` (class `ColorCorrector`: the RGB-error-space
daltonization variant), and the frame loop of `main.py` (detection cache
with frame-skip cadence, region clamping and zero-area filtering).

Images are modelled as lists of pixels, a pixel being a triple of integral
0-255 channel values; the floating-point arithmetic of the source is
modelled exactly over the rationals, and `numpy.linalg.inv` by the exact
adjugate inverse. Truncation to `uint8` (`astype(np.uint8)` on clipped
nonnegative data) is the integer floor. A separate shape-indexed frame
model captures the `reshape` validity checks that govern malformed frames.
-/

namespace ColorBlind

/-- A pixel with integral 0-255 channels (uint8 values of the source). -/
abbrev IPixel := ℤ × ℤ × ℤ

/-- A color triple with rational components (float values of the source). -/
abbrev Vec3 := ℚ × ℚ × ℚ

/-- A 3x3 matrix given by its rows. -/
abbrev Mat3 := Vec3 × Vec3 × Vec3

/-- Matrix-vector product; `x @ M.T` applied to each row `x` in the source. -/
def mulVec (m : Mat3) (v : Vec3) : Vec3 :=
  (m.1.1 * v.1 + m.1.2.1 * v.2.1 + m.1.2.2 * v.2.2,
   m.2.1.1 * v.1 + m.2.1.2.1 * v.2.1 + m.2.1.2.2 * v.2.2,
   m.2.2.1 * v.1 + m.2.2.2.1 * v.2.1 + m.2.2.2.2 * v.2.2)

/-- Product of two 3x3 matrices. -/
def mat3Mul (a b : Mat3) : Mat3 :=
  let col1 : Vec3 := (b.1.1, b.2.1.1, b.2.2.1)
  let col2 : Vec3 := (b.1.2.1, b.2.1.2.1, b.2.2.2.1)
  let col3 : Vec3 := (b.1.2.2, b.2.1.2.2, b.2.2.2.2)
  let row (r : Vec3) : Vec3 :=
    (r.1 * col1.1 + r.2.1 * col1.2.1 + r.2.2 * col1.2.2,
     r.1 * col2.1 + r.2.1 * col2.2.1 + r.2.2 * col2.2.2,
     r.1 * col3.1 + r.2.1 * col3.2.1 + r.2.2 * col3.2.2)
  (row a.1, row a.2.1, row a.2.2)

/-- The 3x3 identity matrix. -/
def idMat3 : Mat3 := ((1, 0, 0), (0, 1, 0), (0, 0, 1))

/-- Determinant of a 3x3 matrix. -/
def det3 (m : Mat3) : ℚ :=
  m.1.1 * (m.2.1.2.1 * m.2.2.2.2 - m.2.1.2.2 * m.2.2.2.1)
  - m.1.2.1 * (m.2.1.1 * m.2.2.2.2 - m.2.1.2.2 * m.2.2.1)
  + m.1.2.2 * (m.2.1.1 * m.2.2.2.1 - m.2.1.2.1 * m.2.2.1)

/-- Exact 3x3 inverse by the adjugate formula; models `np.linalg.inv`. -/
def inv3 (m : Mat3) : Mat3 :=
  let d := det3 m
  (((m.2.1.2.1 * m.2.2.2.2 - m.2.1.2.2 * m.2.2.2.1) / d,
    (m.1.2.2 * m.2.2.2.1 - m.1.2.1 * m.2.2.2.2) / d,
    (m.1.2.1 * m.2.1.2.2 - m.1.2.2 * m.2.1.2.1) / d),
   ((m.2.1.2.2 * m.2.2.1 - m.2.1.1 * m.2.2.2.2) / d,
    (m.1.1 * m.2.2.2.2 - m.1.2.2 * m.2.2.1) / d,
    (m.1.2.2 * m.2.1.1 - m.1.1 * m.2.1.2.2) / d),
   ((m.2.1.1 * m.2.2.2.1 - m.2.1.2.1 * m.2.2.1) / d,
    (m.1.2.1 * m.2.2.1 - m.1.1 * m.2.2.2.1) / d,
    (m.1.1 * m.2.1.2.1 - m.1.2.1 * m.2.1.1) / d))

/-- Elementwise sum of two color triples. -/
def vadd (a b : Vec3) : Vec3 := (a.1 + b.1, a.2.1 + b.2.1, a.2.2 + b.2.2)

/-- Elementwise difference of two color triples. -/
def vsub (a b : Vec3) : Vec3 := (a.1 - b.1, a.2.1 - b.2.1, a.2.2 - b.2.2)

/-! ### `colourblind_correction.py`: class `ColorBlindnessCorrector` -/

/-- The RGB-to-LMS transformation matrix (`self.rgb2lms`). -/
def rgb2lms : Mat3 :=
  ((17.8824, 43.5161, 4.11935),
   (3.45565, 27.1554, 3.86714),
   (0.0299566, 0.184309, 1.46709))

/-- The LMS-to-RGB matrix, `np.linalg.inv(self.rgb2lms)`. -/
def lms2rgb : Mat3 := inv3 rgb2lms

/-- Protanopia simulation matrix (`self.protanopia_sim`). -/
def protanopia_sim : Mat3 :=
  ((0.0, 2.02344, -2.52581),
   (0.0, 1.0, 0.0),
   (0.0, 0.0, 1.0))

/-- Deuteranopia simulation matrix (`self.deuteranopia_sim`). -/
def deuteranopia_sim : Mat3 :=
  ((1.0, 0.0, 0.0),
   (0.494207, 0.0, 1.24827),
   (0.0, 0.0, 1.0))

/-- Tritanopia simulation matrix (`self.tritanopia_sim`). -/
def tritanopia_sim : Mat3 :=
  ((1.0, 0.0, 0.0),
   (0.0, 1.0, 0.0),
   (-0.395913, 0.801109, 0.0))

/-- Per-channel normalization to the 0-1 range (`astype(np.float32) / 255.0`). -/
def normalizePixel (p : IPixel) : Vec3 :=
  ((p.1 : ℚ) / 255, (p.2.1 : ℚ) / 255, (p.2.2 : ℚ) / 255)

/-- Method `rgb_to_lms`: normalize each pixel, then apply `rgb2lms` to each.
The `reshape(-1, 3)` and `reshape(h, w, 3)` steps are the identity on the
pixel list of a well-formed image. -/
def rgb_to_lms (rgb_image : List IPixel) : List Vec3 :=
  (rgb_image.map normalizePixel).map (fun v => mulVec rgb2lms v)

/-- Clamping to the unit interval (`np.clip(rgb, 0, 1)`). -/
def clip01 (x : ℚ) : ℚ := max 0 (min 1 x)

/-- Denormalization `(rgb * 255).astype(np.uint8)` after clipping: scale by
255 and truncate; on clipped nonnegative data truncation is the floor. -/
def denorm255 (x : ℚ) : ℤ := ⌊255 * clip01 x⌋

/-- Per-pixel clip-scale-truncate step of `lms_to_rgb`. -/
def denormPixel (v : Vec3) : IPixel := (denorm255 v.1, denorm255 v.2.1, denorm255 v.2.2)

/-- Method `lms_to_rgb`: apply `lms2rgb` to each pixel, clip each channel to
the unit interval, scale by 255 and truncate to integers. -/
def lms_to_rgb (lms_image : List Vec3) : List IPixel :=
  (lms_image.map (fun v => mulVec lms2rgb v)).map denormPixel

/-- Method `simulate_colorblindness`: apply the simulation matrix chosen by
the deficiency-type string, or return the input unchanged for any other
string. -/
def simulate_colorblindness (lms_image : List Vec3) (cb_type : String) : List Vec3 :=
  if cb_type = "protanopia" then lms_image.map (fun v => mulVec protanopia_sim v)
  else if cb_type = "deuteranopia" then lms_image.map (fun v => mulVec deuteranopia_sim v)
  else if cb_type = "tritanopia" then lms_image.map (fun v => mulVec tritanopia_sim v)
  else lms_image

/-- Protanopia error-correction matrix of `daltonize`. -/
def protanopia_shift : Mat3 := ((0, 0, 0), (0.7, 1, 0), (0.7, 0, 1))

/-- Deuteranopia error-correction matrix of `daltonize`. -/
def deuteranopia_shift : Mat3 := ((1, 0.7, 0), (0, 0, 0), (0, 0.7, 1))

/-- Tritanopia error-correction matrix of `daltonize`. -/
def tritanopia_shift : Mat3 := ((1, 0, 0.7), (0, 1, 0.7), (0, 0, 0))

/-- The `if`-`elif` chain of `daltonize` selecting the error-correction
matrix: `none` models the `else: return rgb_image` branch. -/
def shift_for (cb_type : String) : Option Mat3 :=
  if cb_type = "protanopia" then some protanopia_shift
  else if cb_type = "deuteranopia" then some deuteranopia_shift
  else if cb_type = "tritanopia" then some tritanopia_shift
  else none

/-- Method `daltonize`: convert to LMS, simulate the deficiency, take the
elementwise error, route it through the error-correction matrix, add it back
and convert to RGB; for an unrecognized type the original image is returned. -/
def daltonize (rgb_image : List IPixel) (cb_type : String) : List IPixel :=
  let lms_original := rgb_to_lms rgb_image
  let lms_simulated := simulate_colorblindness lms_original cb_type
  let lms_error := List.zipWith vsub lms_original lms_simulated
  match shift_for cb_type with
  | none => rgb_image
  | some error_correction =>
      let lms_corrected_error := lms_error.map (fun v => mulVec error_correction v)
      let lms_corrected := List.zipWith vadd lms_original lms_corrected_error
      lms_to_rgb lms_corrected

/-- Method `process_frame`: dispatch on the current mode string. -/
def process_frame (current_mode : String) (frame : List IPixel) : List IPixel :=
  if current_mode = "normal" then frame
  else if current_mode ∈ ["protanopia", "deuteranopia", "tritanopia"] then
    daltonize frame current_mode
  else frame

/-- The `valid_modes` list of `set_mode`. -/
def valid_modes : List String := ["normal", "protanopia", "deuteranopia", "tritanopia"]

/-- Method `set_mode`: given the current mode and a requested mode string,
returns the new mode together with `true` when the request was accepted;
a request outside `valid_modes` is rejected (a warning is printed) and the
current mode is kept. -/
def set_mode (current_mode : String) (mode : String) : String × Bool :=
  if mode ∈ valid_modes then (mode, true) else (current_mode, false)

/-- ASCII lower-casing of one character. -/
def lowerChar (c : Char) : Char :=
  if 65 ≤ c.toNat ∧ c.toNat ≤ 90 then Char.ofNat (c.toNat + 32) else c

/-- ASCII lower-casing of a string. -/
def lowerString (s : String) : String := String.mk (s.data.map lowerChar)

/-- Modelled from the spec (section Mode input), for comparison with
`set_mode`: the acceptance predicate the specification describes, namely
case-insensitive membership in off, protanopia, deuteranopia, tritanopia. -/
def spec_mode_accepts (m : String) : Bool :=
  decide (lowerString m = "off") || decide (lowerString m = "protanopia") ||
  decide (lowerString m = "deuteranopia") || decide (lowerString m = "tritanopia")

/-! ### `correction.py`: class `ColorCorrector` -/

/-- The fields set up by `ColorCorrector.__init__`. -/
structure ColorCorrector where
  mode : String
  lms_matrix : Mat3
  rgb_matrix_inv : Mat3
  sim_deuteranopia : Mat3
  err_mod : Mat3

/-- Constructor `ColorCorrector.__init__(mode)`: stores the mode string and
builds the four constant matrices (the same numeric constants for every
mode). -/
def ColorCorrector.init (mode : String) : ColorCorrector :=
  let lms_matrix : Mat3 :=
    ((17.8824, 43.5161, 4.11935),
     (3.45565, 27.1554, 3.86714),
     (0.0299566, 0.184309, 1.46709))
  ⟨mode, lms_matrix, inv3 lms_matrix,
   ((1, 0, 0), (0.494207, 0, 1.24827), (0, 0, 1)),
   ((0, 0, 0), (0.7, 1, 0), (0.7, 0, 1))⟩

/-- Channel reversal performed by `cv2.cvtColor` with `COLOR_BGR2RGB` (and
identically by `COLOR_RGB2BGR`). -/
def bgr2rgb (p : IPixel) : IPixel := (p.2.2, p.2.1, p.1)

/-- Clamping to 0-255 followed by `uint8` truncation (`np.clip(dtpn, 0, 255)`
then `astype(np.uint8)`). -/
def clip255 (x : ℚ) : ℤ := ⌊max 0 (min 255 x)⌋

/-- Per-pixel clip-truncate step of `apply_correction`. -/
def clipPixel255 (v : Vec3) : IPixel := (clip255 v.1, clip255 v.2.1, clip255 v.2.2)

/-- Method `ColorCorrector.apply_correction`: swap BGR to RGB, transform to
LMS on the 0-255 scale, simulate deuteranopia, transform the simulated image
back to RGB, take the RGB-space error, route it through `err_mod`, add it to
the original, clip to 0-255, truncate, and swap back to BGR. -/
def ColorCorrector.apply_correction (c : ColorCorrector) (image : List IPixel) : List IPixel :=
  let img_rgb := image.map bgr2rgb
  let img_flat : List Vec3 := img_rgb.map (fun p : IPixel => ((p.1 : ℚ), (p.2.1 : ℚ), (p.2.2 : ℚ)))
  let lms := img_flat.map (fun v => mulVec c.lms_matrix v)
  let lms_sim := lms.map (fun v => mulVec c.sim_deuteranopia v)
  let rgb_sim := lms_sim.map (fun v => mulVec c.rgb_matrix_inv v)
  let error := List.zipWith vsub img_flat rgb_sim
  let correction := error.map (fun v => mulVec c.err_mod v)
  let dtpn := List.zipWith vadd img_flat correction
  let clipped := dtpn.map clipPixel255
  clipped.map bgr2rgb

/-! ### `main.py`: detection cache, cadence, clamping -/

/-- A detection tuple `(x1, y1, x2, y2, cls_id, conf)` from `detector.py`. -/
structure Detection where
  x1 : ℤ
  y1 : ℤ
  x2 : ℤ
  y2 : ℤ
  cls_id : ℕ
  conf : ℚ
deriving DecidableEq

/-- An axis-aligned rectangle in frame coordinates. -/
structure Region where
  x1 : ℤ
  y1 : ℤ
  x2 : ℤ
  y2 : ℤ
deriving DecidableEq

/-- The constant `SKIP_FRAMES` of `main.py`. -/
def SKIP_FRAMES : ℕ := 5

/-- The `current_detections` cache of the `main.py` loop as a function of the
frame index: refreshed from the detector output `raw` whenever
`frame_count % SKIP_FRAMES == 0`, and otherwise carried over unchanged from
the previous frame. -/
def current_detections (raw : ℕ → List Detection) : ℕ → List Detection
  | 0 => raw 0
  | i + 1 => if (i + 1) % SKIP_FRAMES = 0 then raw (i + 1) else current_detections raw i

/-- The clamping step of the loop body:
`x1, y1 = max(0, x1), max(0, y1)` and `x2, y2 = min(w, x2), min(h, y2)`. -/
def clamp_region (w h : ℤ) (d : Detection) : Region :=
  ⟨max 0 d.x1, max 0 d.y1, min w d.x2, min h d.y2⟩

/-- Resolution of a python slice index against a sequence of length `len`:
a negative index is taken from the end (`len + i`, clamped below at zero),
a nonnegative one is clamped above at `len`. -/
def sliceIdx (len i : ℤ) : ℤ := if i < 0 then max 0 (len + i) else min i len

/-- Length of the python slice `[a:b]` of a sequence of length `len`. -/
def sliceLen (len a b : ℤ) : ℤ := max 0 (sliceIdx len b - sliceIdx len a)

/-- Number of elements of `roi = frame[y1:y2, x1:x2]` for a 3-channel frame
of width `w` and height `h` (`roi.size`). -/
def roi_size (w h : ℤ) (r : Region) : ℤ :=
  sliceLen h r.y1 r.y2 * (sliceLen w r.x1 r.x2 * 3)

/-- The regions the loop actually hands to `corrector.apply_correction`:
each detection clamped to the frame, kept only when `roi.size > 0`. -/
def select_regions (w h : ℤ) (dets : List Detection) : List Region :=
  (dets.map (clamp_region w h)).filter (fun r => decide (0 < roi_size w h r))

/-! ### Shape-indexed frame model for malformed-frame behavior

`daltonize` performs no validation of its own; the only shape-sensitive
steps are the two `reshape` calls inside `rgb_to_lms`. The model below
carries the `(h, w, c)` shape and the flat channel data of a numpy array
explicitly, and makes each `reshape` a fallible step exactly as numpy
defines it: `reshape(-1, 3)` requires the element count to be divisible by
3, and `reshape(h, w, 3)` requires the element count to equal `h * w * 3`. -/

/-- A numpy frame of shape `(h, w, c)` with its flat channel data. -/
structure Frame where
  h : ℕ
  w : ℕ
  c : ℕ
  data : List ℤ
deriving DecidableEq

/-- Grouping of a flat list into consecutive triples; the row layout
produced by `reshape(-1, 3)`. -/
def groupTriples : List ℚ → List Vec3
  | [] => []
  | [_] => []
  | [_, _] => []
  | a :: b :: c :: rest => (a, b, c) :: groupTriples rest

/-- The `reshape(-1, 3)` step: fails unless the element count is divisible
by 3. -/
def reshapeN3 (xs : List ℚ) : Except String (List Vec3) :=
  if xs.length % 3 = 0 then Except.ok (groupTriples xs)
  else Except.error "cannot reshape array into shape (-1,3)"

/-- The `reshape(h, w, 3)` step: fails unless the pixel count equals
`h * w`. -/
def reshapeHW (h w : ℕ) (px : List Vec3) : Except String (List Vec3) :=
  if px.length = h * w then Except.ok px
  else Except.error "cannot reshape array into shape (h,w,3)"

/-- Method `rgb_to_lms` on an explicitly shaped frame: normalize the flat
data, `reshape(-1, 3)`, multiply by `rgb2lms`, `reshape(h, w, 3)`. -/
def rgb_to_lms_flat (f : Frame) : Except String (List Vec3) :=
  let rgb_normalized := f.data.map (fun x : ℤ => (x : ℚ) / 255)
  match reshapeN3 rgb_normalized with
  | Except.error e => Except.error e
  | Except.ok rgb_reshaped =>
      let lms := rgb_reshaped.map (fun v => mulVec rgb2lms v)
      reshapeHW f.h f.w lms

/-- Flattening of a pixel list back to flat channel data. -/
def flattenPixels (l : List IPixel) : List ℤ :=
  (l.map (fun p => [p.1, p.2.1, p.2.2])).flatten

/-- Method `daltonize` on an explicitly shaped frame: any reshape failure
inside `rgb_to_lms` aborts the call (a raised `ValueError`), and otherwise
the computation proceeds as in the pixel-level `daltonize`, producing an
`(h, w, 3)` frame (or the untouched input frame for an unrecognized type). -/
def daltonize_flat (f : Frame) (cb_type : String) : Except String Frame :=
  match rgb_to_lms_flat f with
  | Except.error e => Except.error e
  | Except.ok lms_original =>
      let lms_simulated := simulate_colorblindness lms_original cb_type
      let lms_error := List.zipWith vsub lms_original lms_simulated
      match shift_for cb_type with
      | none => Except.ok f
      | some error_correction =>
          let lms_corrected_error := lms_error.map (fun v => mulVec error_correction v)
          let lms_corrected := List.zipWith vadd lms_original lms_corrected_error
          Except.ok ⟨f.h, f.w, 3, flattenPixels (lms_to_rgb lms_corrected)⟩

/-- Success test for the fallible frame computation. -/
def isOkE (e : Except String Frame) : Bool :=
  match e with
  | Except.ok _ => true
  | Except.error _ => false

/-! ### Validity predicates and concrete inputs -/

/-- Every channel of the pixel is an integer in 0-255. -/
abbrev validPixel (p : IPixel) : Prop :=
  0 ≤ p.1 ∧ p.1 ≤ 255 ∧ 0 ≤ p.2.1 ∧ p.2.1 ≤ 255 ∧ 0 ≤ p.2.2 ∧ p.2.2 ≤ 255

/-- Every pixel of the image is valid. -/
abbrev validImage (img : List IPixel) : Prop := ∀ p ∈ img, validPixel p

/-- The 2x1 test image with a pure red and a pure green pixel. -/
def test_image : List IPixel := [(255, 0, 0), (0, 255, 0)]

/-- A single pure-green-pixel image. -/
def green_image : List IPixel := [(0, 255, 0)]

/-- A concrete per-frame detector output used to instantiate the cadence
theorem. -/
def raw_example : ℕ → List Detection := fun i => [⟨(i : ℤ), 0, 10, 10, 9, 1/2⟩]

/-- A concrete out-of-bounds detection used to instantiate the clamping
theorem. -/
def det_example : Detection := ⟨-5, -5, 700, 500, 9, 1/2⟩

/-- A concrete detection lying entirely to the left of the frame: its
clamped right edge stays negative, which a python slice reads from the end
of the row. -/
def neg_det : Detection := ⟨-10, 0, -5, 480, 9, 1/2⟩

/-- A 2x1x4-shaped frame: nonzero area, channel count 4. -/
def bad_channels_frame : Frame := ⟨2, 1, 4, [0, 0, 0, 0, 0, 0, 0, 0]⟩

/-- A 0x5x3-shaped frame: zero height. -/
def empty_frame : Frame := ⟨0, 5, 3, []⟩

/-! ### Helper lemmas -/

/-- The adjugate inverse of `rgb2lms` is an exact left inverse. -/
theorem lms2rgb_mul_rgb2lms : mat3Mul lms2rgb rgb2lms = idMat3 := by
  with_unfolding_all rfl

/-- Matrix-vector products compose through the matrix product. -/
theorem mulVec_mulVec (a b : Mat3) (v : Vec3) :
    mulVec a (mulVec b v) = mulVec (mat3Mul a b) v := by
  obtain ⟨⟨a11, a12, a13⟩, ⟨a21, a22, a23⟩, ⟨a31, a32, a33⟩⟩ := a
  obtain ⟨⟨b11, b12, b13⟩, ⟨b21, b22, b23⟩, ⟨b31, b32, b33⟩⟩ := b
  obtain ⟨x, y, z⟩ := v
  simp only [mulVec, mat3Mul, Prod.ext_iff]
  refine ⟨by ring, by ring, by ring⟩

/-- The identity matrix acts as the identity on triples. -/
theorem mulVec_id (v : Vec3) : mulVec idMat3 v = v := by
  obtain ⟨x, y, z⟩ := v
  simp only [mulVec, idMat3, Prod.ext_iff]
  refine ⟨by ring, by ring, by ring⟩

/-- Denormalization is a two-sided inverse of normalization on 0-255
integer channel values. -/
theorem denorm255_norm (z : ℤ) (h0 : 0 ≤ z) (h255 : z ≤ 255) :
    denorm255 ((z : ℚ) / 255) = z := by
  have hz0 : (0 : ℚ) ≤ (z : ℚ) / 255 := by positivity
  have hz1 : (z : ℚ) / 255 ≤ 1 := by
    rw [div_le_one (by norm_num : (0 : ℚ) < 255)]
    exact_mod_cast h255
  unfold denorm255 clip01
  rw [min_eq_right hz1, max_eq_right hz0]
  have : (255 : ℚ) * ((z : ℚ) / 255) = (z : ℚ) := by field_simp
  rw [this, Int.floor_intCast]

/-- One pixel survives the LMS round trip exactly. -/
theorem roundtrip_pixel (p : IPixel) (hp : validPixel p) :
    denormPixel (mulVec lms2rgb (mulVec rgb2lms (normalizePixel p))) = p := by
  obtain ⟨r, g, b⟩ := p
  obtain ⟨h1, h2, h3, h4, h5, h6⟩ := hp
  rw [mulVec_mulVec, lms2rgb_mul_rgb2lms, mulVec_id]
  simp only [normalizePixel, denormPixel]
  rw [denorm255_norm r h1 h2, denorm255_norm g h3 h4, denorm255_norm b h5 h6]

/-- A valid image survives the LMS round trip exactly. -/
theorem roundtrip_exact (img : List IPixel) (h : validImage img) :
    lms_to_rgb (rgb_to_lms img) = img := by
  unfold lms_to_rgb rgb_to_lms
  rw [List.map_map, List.map_map, List.map_map]
  calc img.map (denormPixel ∘ (fun v => mulVec lms2rgb v) ∘ (fun v => mulVec rgb2lms v) ∘ normalizePixel)
      = img.map id := List.map_congr_left (fun p hp => roundtrip_pixel p (h p hp))
    _ = img := List.map_id img

/-- The unit-interval clip is nonnegative. -/
theorem clip01_nonneg (x : ℚ) : 0 ≤ clip01 x := le_max_left 0 _

/-- The unit-interval clip is at most one. -/
theorem clip01_le_one (x : ℚ) : clip01 x ≤ 1 :=
  max_le (by norm_num) (min_le_left 1 x)

/-- The denormalized channel value lies in 0-255. -/
theorem denorm255_mem (x : ℚ) : 0 ≤ denorm255 x ∧ denorm255 x ≤ 255 := by
  constructor
  · exact Int.floor_nonneg.mpr (mul_nonneg (by norm_num) (clip01_nonneg x))
  · have hb : 255 * clip01 x ≤ ((255 : ℤ) : ℚ) := by
      have := clip01_le_one x
      push_cast
      nlinarith [clip01_nonneg x]
    calc ⌊255 * clip01 x⌋ ≤ ⌊((255 : ℤ) : ℚ)⌋ := Int.floor_le_floor hb
      _ = 255 := Int.floor_intCast 255

/-- Every output pixel of `lms_to_rgb` is a valid 0-255 pixel. -/
theorem lms_to_rgb_valid (l : List Vec3) : validImage (lms_to_rgb l) := by
  intro p hp
  unfold lms_to_rgb at hp
  rw [List.map_map, List.mem_map] at hp
  obtain ⟨v, _, rfl⟩ := hp
  simp only [Function.comp, denormPixel]
  refine ⟨(denorm255_mem _).1, (denorm255_mem _).2, (denorm255_mem _).1,
    (denorm255_mem _).2, (denorm255_mem _).1, (denorm255_mem _).2⟩

/-- The clipped-truncated channel value of `apply_correction` lies in 0-255. -/
theorem clip255_mem (x : ℚ) : 0 ≤ clip255 x ∧ clip255 x ≤ 255 := by
  constructor
  · exact Int.floor_nonneg.mpr (le_max_left 0 _)
  · have hb : max 0 (min 255 x) ≤ ((255 : ℤ) : ℚ) := by
      refine max_le (by norm_num) ?_
      exact le_trans (min_le_left 255 x) (by norm_num)
    calc ⌊max 0 (min 255 x)⌋ ≤ ⌊((255 : ℤ) : ℚ)⌋ := Int.floor_le_floor hb
      _ = 255 := Int.floor_intCast 255

/-- Channel reversal preserves pixel validity. -/
theorem bgr2rgb_valid (p : IPixel) (hp : validPixel p) : validPixel (bgr2rgb p) := by
  obtain ⟨r, g, b⟩ := p
  obtain ⟨h1, h2, h3, h4, h5, h6⟩ := hp
  exact ⟨h5, h6, h3, h4, h1, h2⟩

/-- Every output pixel of `apply_correction` is a valid 0-255 pixel,
for every constructor mode and every input image. -/
theorem apply_correction_valid (c : ColorCorrector) (img : List IPixel) :
    validImage (c.apply_correction img) := by
  intro p hp
  unfold ColorCorrector.apply_correction at hp
  rw [List.mem_map] at hp
  obtain ⟨q, hq, rfl⟩ := hp
  rw [List.mem_map] at hq
  obtain ⟨v, _, rfl⟩ := hq
  refine bgr2rgb_valid _ ?_
  simp only [clipPixel255]
  refine ⟨(clip255_mem _).1, (clip255_mem _).2, (clip255_mem _).1,
    (clip255_mem _).2, (clip255_mem _).1, (clip255_mem _).2⟩

/-- The detection cache at frame `i` holds the detector output of the most
recent refresh frame, the largest multiple of `SKIP_FRAMES` not above `i`. -/
theorem current_detections_window (raw : ℕ → List Detection) :
    ∀ i, current_detections raw i = raw (SKIP_FRAMES * (i / SKIP_FRAMES)) := by
  intro i
  induction i with
  | zero => simp [current_detections]
  | succ n ih =>
      by_cases h : (n + 1) % SKIP_FRAMES = 0
      · rw [current_detections, if_pos h, Nat.mul_div_cancel' (Nat.dvd_of_mod_eq_zero h)]
      · have hnd : ¬ SKIP_FRAMES ∣ (n + 1) := fun hd => h (Nat.mod_eq_zero_of_dvd hd)
        rw [current_detections, if_neg h, ih, Nat.succ_div_of_not_dvd hnd]

/-- Grouping into triples divides the length by three. -/
theorem groupTriples_length (xs : List ℚ) :
    (groupTriples xs).length = xs.length / 3 := by
  induction xs using groupTriples.induct with
  | case1 => rfl
  | case2 _ => simp [groupTriples]
  | case3 _ _ => simp [groupTriples]
  | case4 a b c rest ih =>
      simp only [groupTriples, List.length_cons, ih]
      omega

/-- Simulation of an empty pixel list yields an empty pixel list. -/
theorem simulate_nil (cb_type : String) :
    simulate_colorblindness [] cb_type = [] := by
  unfold simulate_colorblindness
  split_ifs <;> rfl

/-- On a frame of zero area whose data length matches its shape,
`rgb_to_lms` succeeds with an empty pixel list. -/
theorem rgb_to_lms_flat_empty (f : Frame) (hwf : f.data.length = f.h * f.w * f.c)
    (h0 : f.h * f.w = 0) : rgb_to_lms_flat f = Except.ok [] := by
  have hn : f.data.length = 0 := by rw [hwf, h0, Nat.zero_mul]
  have hdata : f.data = [] := List.length_eq_zero.mp hn
  unfold rgb_to_lms_flat reshapeN3 reshapeHW
  rw [hdata]
  simp [groupTriples, h0]

/-- On a list of suitable length the first reshape succeeds. -/
theorem reshapeN3_ok (xs : List ℚ) (h : xs.length % 3 = 0) :
    reshapeN3 xs = Except.ok (groupTriples xs) := by
  unfold reshapeN3
  rw [if_pos h]

/-- On a list of unsuitable length the first reshape fails. -/
theorem reshapeN3_err (xs : List ℚ) (h : xs.length % 3 ≠ 0) :
    reshapeN3 xs = Except.error "cannot reshape array into shape (-1,3)" := by
  unfold reshapeN3
  rw [if_neg h]

/-- On a pixel list of unsuitable length the second reshape fails. -/
theorem reshapeHW_err (h w : ℕ) (px : List Vec3) (hne : px.length ≠ h * w) :
    reshapeHW h w px = Except.error "cannot reshape array into shape (h,w,3)" := by
  unfold reshapeHW
  rw [if_neg hne]

/-- On a frame of nonzero area with a channel count other than three,
`rgb_to_lms` fails in one of its two reshape steps. -/
theorem rgb_to_lms_flat_err (f : Frame) (hwf : f.data.length = f.h * f.w * f.c)
    (hpos : 0 < f.h * f.w) (hc3 : f.c ≠ 3) :
    ∃ e, rgb_to_lms_flat f = Except.error e := by
  by_cases h3 : f.data.length % 3 = 0
  · have hne : f.data.length / 3 ≠ f.h * f.w := by
      intro heq
      have hdvd : (3 : ℕ) ∣ f.data.length := Nat.dvd_of_mod_eq_zero h3
      have hmul : f.data.length = f.h * f.w * 3 := by
        rw [← heq, Nat.div_mul_cancel hdvd]
      rw [hwf] at hmul
      exact hc3 (Nat.eq_of_mul_eq_mul_left hpos hmul)
    refine ⟨"cannot reshape array into shape (h,w,3)", ?_⟩
    simp only [rgb_to_lms_flat]
    rw [reshapeN3_ok _ (by rw [List.length_map]; exact h3)]
    exact reshapeHW_err f.h f.w _
      (by rw [List.length_map, groupTriples_length, List.length_map]; exact hne)
  · refine ⟨"cannot reshape array into shape (-1,3)", ?_⟩
    simp only [rgb_to_lms_flat]
    rw [reshapeN3_err _ (by rw [List.length_map]; exact h3)]

/-! ### Claim theorems -/

/-- C1: with correction disabled, the engine is an exact identity on every
image: `daltonize` with the no-correction mode string returns its input
unchanged, and `process_frame` in the off mode returns the frame
unmodified without invoking the engine. -/
theorem off_mode_identity (img : List IPixel) :
    daltonize img "normal" = img ∧ process_frame "normal" img = img := by
  constructor
  · have h : shift_for "normal" = none := by with_unfolding_all rfl
    simp only [daltonize, h]
  · simp [process_frame]

/-- C2: for every valid image, the round trip `lms_to_rgb` after
`rgb_to_lms` reproduces the image to within one unit per channel (in fact
exactly, in the exact-arithmetic model). -/
theorem roundtrip_within_tolerance (img : List IPixel) (h : validImage img) :
    List.Forall₂ (fun p q : IPixel =>
      |p.1 - q.1| ≤ 1 ∧ |p.2.1 - q.2.1| ≤ 1 ∧ |p.2.2 - q.2.2| ≤ 1)
      (lms_to_rgb (rgb_to_lms img)) img := by
  rw [roundtrip_exact img h, List.forall₂_same]
  intro p _
  norm_num

/-- C2 witness: the round-trip theorem instantiated on the concrete 2x1
test image. -/
theorem roundtrip_within_tolerance_witness :
    validImage test_image ∧
    List.Forall₂ (fun p q : IPixel =>
      |p.1 - q.1| ≤ 1 ∧ |p.2.1 - q.2.1| ≤ 1 ∧ |p.2.2 - q.2.2| ≤ 1)
      (lms_to_rgb (rgb_to_lms test_image)) test_image :=
  ⟨by decide, roundtrip_within_tolerance test_image (by decide)⟩

/-- C3: for every valid input image, every deficiency-type string and every
constructor mode, every channel of every pixel of the corrected output lies
in 0-255, for both correction variants. -/
theorem output_bounded (img : List IPixel) (cb_type mode : String)
    (h : validImage img) :
    validImage (daltonize img cb_type) ∧
    validImage ((ColorCorrector.init mode).apply_correction img) := by
  refine ⟨?_, apply_correction_valid _ img⟩
  rcases hs : shift_for cb_type with _ | ec
  · simpa only [daltonize, hs] using h
  · simp only [daltonize, hs]
    exact lms_to_rgb_valid _

/-- C3 witness: the boundedness theorem instantiated on the concrete 2x1
test image with protanopia correction. -/
theorem output_bounded_witness :
    validImage test_image ∧
    (validImage (daltonize test_image "protanopia") ∧
     validImage ((ColorCorrector.init "deuteranopia").apply_correction test_image)) :=
  ⟨by decide, output_bounded test_image "protanopia" "deuteranopia" (by decide)⟩

/-- C10: the output of `apply_correction` does not depend on the mode string
given to the `ColorCorrector` constructor: the stored mode is never read and
the same constant matrices are used for every mode. -/
theorem apply_correction_mode_independent (m1 m2 : String) (img : List IPixel) :
    (ColorCorrector.init m1).apply_correction img =
    (ColorCorrector.init m2).apply_correction img := rfl

/-- C4 counterexample: the claimed acceptance condition is false on the
concrete input string off: the specification-side predicate accepts it,
but `set_mode` rejects it (the off state is spelled normal in the code, and
matching is case-sensitive), leaving the state unchanged. -/
theorem mode_claim_counterexample :
    spec_mode_accepts "off" = true ∧ set_mode "normal" "off" = ("normal", false) := by
  constructor
  · with_unfolding_all rfl
  · with_unfolding_all rfl

/-- C4 amended: `set_mode` accepts a string exactly when it equals,
case-sensitively, one of normal, protanopia, deuteranopia, tritanopia; any
other string is rejected non-fatally with the current mode state left
unchanged. -/
theorem set_mode_exact_match (current mode : String) :
    ((set_mode current mode).2 = true ↔ mode ∈ valid_modes) ∧
    ((set_mode current mode).2 = false → set_mode current mode = (current, false)) := by
  by_cases h : mode ∈ valid_modes <;> simp [set_mode, h]

/-- C4 witness: the amended theorem instantiated on the rejected request
off in the state normal. -/
theorem set_mode_exact_match_witness :
    set_mode "normal" "off" = ("normal", false) :=
  (set_mode_exact_match "normal" "off").2 (by with_unfolding_all rfl)

/-- C5 counterexample: a malformed frame of height zero is not rejected:
`daltonize` on the 0x5x3 frame succeeds and returns the empty frame, rather
than failing with any invalid-frame condition. -/
theorem empty_frame_ok_counterexample :
    daltonize_flat empty_frame "deuteranopia" = Except.ok empty_frame := by
  with_unfolding_all rfl

/-- C5 amended: a frame of zero width or height is processed successfully
(yielding an empty output, no failure at all), while a frame of nonzero
area with a channel count other than three fails inside a reshape step with
an untyped error, producing no output; no dedicated invalid-frame condition
exists. -/
theorem malformed_frame_behavior (f : Frame) (cb_type : String)
    (hwf : f.data.length = f.h * f.w * f.c) :
    (f.h * f.w = 0 → isOkE (daltonize_flat f cb_type) = true) ∧
    (0 < f.h * f.w → f.c ≠ 3 → isOkE (daltonize_flat f cb_type) = false) := by
  constructor
  · intro h0
    have hok := rgb_to_lms_flat_empty f hwf h0
    rcases hs : shift_for cb_type with _ | ec <;>
      simp [daltonize_flat, hok, hs, simulate_nil, isOkE]
  · intro hpos hc3
    obtain ⟨e, herr⟩ := rgb_to_lms_flat_err f hwf hpos hc3
    simp [daltonize_flat, herr, isOkE]

/-- C5 witness: the amended theorem instantiated on the 2x1x4 frame, whose
channel count is not three. -/
theorem malformed_frame_behavior_witness :
    isOkE (daltonize_flat bad_channels_frame "deuteranopia") = false :=
  (malformed_frame_behavior bad_channels_frame "deuteranopia" (by decide)).2
    (by decide) (by decide)

/-- C6: the detection cache refreshes from the detector exactly at frame
indices that are multiples of the skip cadence, is carried over unchanged
at all other indices, and any two frame indices in the same cadence window
see the identical cached detection list and hence the identical selected
region list. -/
theorem detection_cadence (raw : ℕ → List Detection) (w h : ℤ) (i j : ℕ) :
    (i % SKIP_FRAMES = 0 → current_detections raw i = raw i) ∧
    ((i + 1) % SKIP_FRAMES ≠ 0 →
      current_detections raw (i + 1) = current_detections raw i) ∧
    (i / SKIP_FRAMES = j / SKIP_FRAMES →
      current_detections raw i = current_detections raw j ∧
      select_regions w h (current_detections raw i) =
        select_regions w h (current_detections raw j)) := by
  refine ⟨?_, ?_, ?_⟩
  · intro h0
    rw [current_detections_window raw i,
      Nat.mul_div_cancel' (Nat.dvd_of_mod_eq_zero h0)]
  · intro hne
    simp only [current_detections, if_neg hne]
  · intro hw
    rw [current_detections_window raw i, current_detections_window raw j, hw]
    exact ⟨rfl, rfl⟩

/-- C6 witness: the cadence theorem instantiated at frames 6 and 9, which
lie in the same cadence window for the skip cadence 5. -/
theorem detection_cadence_witness :
    current_detections raw_example 6 = current_detections raw_example 9 ∧
    select_regions 640 480 (current_detections raw_example 6) =
      select_regions 640 480 (current_detections raw_example 9) :=
  (detection_cadence raw_example 640 480 6 9).2.2 (by decide)

/-- C7 counterexample: a detection lying entirely to the left of a 640x480
frame clamps to the zero-area rectangle with right edge -5, yet it is not
dropped: the negative stop is read by the python slice as an offset from
the end of the row, the roi is nonempty, and the region is handed to the
correction engine. -/
theorem region_drop_counterexample :
    clamp_region 640 480 neg_det = Region.mk 0 0 (-5) 480 ∧
    (Region.mk 0 0 (-5) 480).x2 < (Region.mk 0 0 (-5) 480).x1 ∧
    select_regions 640 480 [neg_det] = [Region.mk 0 0 (-5) 480] := by decide

/-- C7 amended: every region handed to the correction engine satisfies the
clamped bounds (nonnegative top-left corner, bottom-right corner at most
the frame edge); when its clamped bottom-right corner is nonnegative it
moreover has strictly positive extent in both axes, so such a region that
degenerates to zero area after clamping is dropped -- but a clamped corner
that stays negative is reinterpreted by the python slice as an offset from
the frame edge, and such a zero-area rectangle can still be processed. -/
theorem region_clamping_amended (w h : ℤ) (dets : List Detection) (r : Region)
    (hr : r ∈ select_regions w h dets) :
    (0 ≤ r.x1 ∧ 0 ≤ r.y1 ∧ r.x2 ≤ w ∧ r.y2 ≤ h) ∧
    (0 ≤ r.x2 → 0 ≤ r.y2 → r.x1 < r.x2 ∧ r.y1 < r.y2) := by
  unfold select_regions at hr
  rw [List.mem_filter] at hr
  obtain ⟨hmem, hsize⟩ := hr
  rw [List.mem_map] at hmem
  obtain ⟨d, _, rfl⟩ := hmem
  rw [decide_eq_true_iff] at hsize
  unfold roi_size at hsize
  have hy0 : (0 : ℤ) ≤ sliceLen h (clamp_region w h d).y1 (clamp_region w h d).y2 :=
    le_max_left 0 _
  have hx0 : (0 : ℤ) ≤ sliceLen w (clamp_region w h d).x1 (clamp_region w h d).x2 :=
    le_max_left 0 _
  have hy : 0 < sliceLen h (clamp_region w h d).y1 (clamp_region w h d).y2 := by
    nlinarith
  have hx : 0 < sliceLen w (clamp_region w h d).x1 (clamp_region w h d).x2 := by
    nlinarith
  simp only [sliceLen, sliceIdx, clamp_region] at hy hx ⊢
  constructor
  · exact ⟨le_max_left _ _, le_max_left _ _, min_le_left _ _, min_le_left _ _⟩
  · intro hx2 hy2
    refine ⟨?_, ?_⟩ <;> split_ifs at hx hy <;> omega

/-- C7 witness: the amended theorem instantiated on a concrete detection
that overflows a 640x480 frame on all four sides, whose clamped corner is
nonnegative. -/
theorem region_clamping_amended_witness :
    (0 ≤ (Region.mk 0 0 640 480).x1 ∧ 0 ≤ (Region.mk 0 0 640 480).y1 ∧
     (Region.mk 0 0 640 480).x2 ≤ 640 ∧ (Region.mk 0 0 640 480).y2 ≤ 480) ∧
    ((Region.mk 0 0 640 480).x1 < (Region.mk 0 0 640 480).x2 ∧
     (Region.mk 0 0 640 480).y1 < (Region.mk 0 0 640 480).y2) :=
  ⟨(region_clamping_amended 640 480 [det_example] (Region.mk 0 0 640 480)
      (by decide)).1,
   (region_clamping_amended 640 480 [det_example] (Region.mk 0 0 640 480)
      (by decide)).2 (by decide) (by decide)⟩

/-- C8: on the concrete 2x1 image with a pure red and a pure green pixel,
the full pipeline in deuteranopia mode differs from the off-mode
(unmodified) output on the green pixel in both the red and the blue
channel. -/
theorem deuteranopia_changes_green_pixel :
    ((process_frame "deuteranopia" test_image)[1]!).1 ≠
      ((process_frame "normal" test_image)[1]!).1 ∧
    ((process_frame "deuteranopia" test_image)[1]!).2.2 ≠
      ((process_frame "normal" test_image)[1]!).2.2 :=
  of_decide_eq_true (by with_unfolding_all rfl)

/-- C9: the two daltonization variants of the repository are not
equivalent: on the concrete single-pixel pure-green image, the LMS-space
variant of `colourblind_correction.py` and the RGB-error-space variant of
`correction.py` produce different output images. -/
theorem daltonize_variants_differ :
    daltonize green_image "deuteranopia" ≠
      (ColorCorrector.init "deuteranopia").apply_correction green_image :=
  of_decide_eq_true (by with_unfolding_all rfl)

end ColorBlind
